import Mathlib

/-!
Verification of the row-normalization and format-detection pipeline of
`rogers_cc_to_monarch.py` (a Rogers Bank CSV to Monarch Money CSV converter).

Modelling conventions for the shallow embedding:
* Python `str` is Lean `String` (logically a list of `Char`); `str.strip` and
  `str.lower` are modelled on their ASCII behaviour (`pyStrip`, `pyLower`).
* Python `float` values are modelled as exact rationals; the binary rounding
  of IEEE doubles is not modelled (none of the verified statements depends on
  it), but the sign of `-abs(x)` - a negative zero when `x == 0.0` - is
  tracked where it is observable, namely in the `"%.2f"` formatting of the
  output amount (`pyFormat2`).
* A raised, uncaught Python exception (the `ValueError` that `float(...)` can
  raise inside `clean_amount`) is `Except.error ()`.
* `datetime.date` is `PyDate`; `datetime.strptime` for the six fixed formats
  used by `parse_date_str` is modelled by direct recursive-descent functions
  whose component token matchers reproduce the regular expressions CPython's
  `_strptime` compiles for `%Y`, `%m`, `%d`, `%b`, `%B`, literal characters
  and whitespace.  For these six patterns, ordered-alternative matching with
  no continuation backtracking coincides with the regex engine's behaviour
  (every two-character numeric alternative forces a digit where the following
  literal would have to match, so a shorter alternative can never rescue a
  failed continuation), and the full-consumption check of `_strptime` is the
  final test for an empty remainder.
* A CSV row (`csv.DictReader` output) is an association list from header name
  to optional cell value (`None` for a short row).
-/

namespace RogersCC

/-! ### Python string primitives -/

/-- Whitespace for `str.strip` / regex `\s` (ASCII part). -/
def pyIsSpace (c : Char) : Bool :=
  c = ' ' || c = '\t' || c = '\n' || c = '\r' || c = Char.ofNat 11 || c = Char.ofNat 12

/-- `str.strip()` on a character list. -/
def stripChars (l : List Char) : List Char :=
  ((l.dropWhile pyIsSpace).reverse.dropWhile pyIsSpace).reverse

/-- Python `s.strip()`. -/
def pyStrip (s : String) : String := ⟨stripChars s.data⟩

/-- Python `s.lower()` (ASCII). -/
def pyLower (s : String) : String := ⟨s.data.map Char.toLower⟩

/-! ### Dates -/

/-- `datetime.date`: a calendar date. -/
structure PyDate where
  year : ℕ
  month : ℕ
  day : ℕ
deriving DecidableEq

/-- Python `date` comparison `a < b` (lexicographic on year, month, day). -/
def PyDate.ltP (a b : PyDate) : Prop :=
  a.year < b.year ∨
    (a.year = b.year ∧ (a.month < b.month ∨ (a.month = b.month ∧ a.day < b.day)))

instance (a b : PyDate) : Decidable (a.ltP b) := by
  unfold PyDate.ltP; infer_instance

/-- Python `date` comparison `a <= b`. -/
def PyDate.leP (a b : PyDate) : Prop := a.ltP b ∨ a = b

instance (a b : PyDate) : Decidable (a.leP b) := by
  unfold PyDate.leP; infer_instance

/-- Boolean form of `PyDate.ltP`, used where the source compares dates. -/
def PyDate.ltB (a b : PyDate) : Bool := decide (a.ltP b)

/-- Gregorian leap year, as validated by `datetime.date`. -/
def isLeap (y : ℕ) : Bool := y % 4 = 0 && (y % 100 ≠ 0 || y % 400 = 0)

/-- Days in a month, as validated by `datetime.date`. -/
def daysInMonth (y m : ℕ) : ℕ :=
  if m = 2 then (if isLeap y then 29 else 28)
  else if m = 4 || m = 6 || m = 9 || m = 11 then 30
  else 31

/-- `datetime.date(y, m, d)`: `none` models the `ValueError` strptime turns
into a failed format attempt. -/
def mkDate (y m d : ℕ) : Option PyDate :=
  if 1 ≤ y ∧ y ≤ 9999 ∧ 1 ≤ m ∧ m ≤ 12 ∧ 1 ≤ d ∧ d ≤ daysInMonth y m then
    some ⟨y, m, d⟩
  else none

/-! ### strptime token matchers

Each matcher consumes a prefix of the character list and returns the parsed
value with the remainder, or `none`, mirroring the component regexes of
CPython `_strptime`. -/

/-- Sequential composition of matchers. -/
def pbind {α β : Type} (p : List Char → Option (α × List Char))
    (f : α → List Char → Option (β × List Char)) :
    List Char → Option (β × List Char) := fun l =>
  match p l with
  | some al => f al.1 al.2
  | none => none

/-- Matcher returning a value without consuming input. -/
def ppure {α : Type} (a : α) : List Char → Option (α × List Char) :=
  fun l => some (a, l)

/-- Numeric value of a digit character. -/
def digitVal (c : Char) : ℕ := c.toNat - 48

/-- A single literal character of the format string. -/
def pLit (c : Char) : List Char → Option (Unit × List Char) := fun l =>
  match l with
  | d :: rest => if d = c then some ((), rest) else none
  | [] => none

/-- `%Y`: exactly four digits (regex `\d\d\d\d`). -/
def pYear4 : List Char → Option (ℕ × List Char) := fun l =>
  match l with
  | a :: b :: c :: d :: rest =>
    if a.isDigit && b.isDigit && c.isDigit && d.isDigit then
      some (1000 * digitVal a + 100 * digitVal b + 10 * digitVal c + digitVal d, rest)
    else none
  | _ => none

/-- `%m`: regex `1[0-2]|0[1-9]|[1-9]`, alternatives in this order. -/
def pMonthNum : List Char → Option (ℕ × List Char) := fun l =>
  match l with
  | c1 :: c2 :: rest =>
    if c1 = '1' && ('0' ≤ c2 && c2 ≤ '2') then some (10 + digitVal c2, rest)
    else if c1 = '0' && ('1' ≤ c2 && c2 ≤ '9') then some (digitVal c2, rest)
    else if '1' ≤ c1 && c1 ≤ '9' then some (digitVal c1, c2 :: rest)
    else none
  | [c1] => if '1' ≤ c1 && c1 ≤ '9' then some (digitVal c1, []) else none
  | [] => none

/-- `%d`: regex `3[01]|[12]\d|0[1-9]|[1-9]`, alternatives in this order. -/
def pDayNum : List Char → Option (ℕ × List Char) := fun l =>
  match l with
  | c1 :: c2 :: rest =>
    if c1 = '3' && ('0' ≤ c2 && c2 ≤ '1') then some (30 + digitVal c2, rest)
    else if ('1' ≤ c1 && c1 ≤ '2') && c2.isDigit then
      some (10 * digitVal c1 + digitVal c2, rest)
    else if c1 = '0' && ('1' ≤ c2 && c2 ≤ '9') then some (digitVal c2, rest)
    else if '1' ≤ c1 && c1 ≤ '9' then some (digitVal c1, c2 :: rest)
    else none
  | [c1] => if '1' ≤ c1 && c1 ≤ '9' then some (digitVal c1, []) else none
  | [] => none

/-- A whitespace run in the format string (`\s+`, greedy). -/
def pWS1 : List Char → Option (Unit × List Char) := fun l =>
  if (l.takeWhile pyIsSpace).isEmpty then none
  else some ((), l.dropWhile pyIsSpace)

/-- Case-insensitive month-name alternation (`%b` / `%B`): the stored names
are lowercase; the consumed prefix is lowered before comparison. -/
def pMonthName (names : List (List Char × ℕ)) :
    List Char → Option (ℕ × List Char) := fun l =>
  names.findSome? fun nm =>
    if (l.take nm.1.length).map Char.toLower = nm.1 then
      some (nm.2, l.drop nm.1.length)
    else none

/-- The C-locale month abbreviations used by `%b`. -/
def monthAbbrevs : List (List Char × ℕ) :=
  [("jan".data, 1), ("feb".data, 2), ("mar".data, 3), ("apr".data, 4),
   ("may".data, 5), ("jun".data, 6), ("jul".data, 7), ("aug".data, 8),
   ("sep".data, 9), ("oct".data, 10), ("nov".data, 11), ("dec".data, 12)]

/-- The C-locale full month names used by `%B`. -/
def monthFulls : List (List Char × ℕ) :=
  [("january".data, 1), ("february".data, 2), ("march".data, 3),
   ("april".data, 4), ("may".data, 5), ("june".data, 6), ("july".data, 7),
   ("august".data, 8), ("september".data, 9), ("october".data, 10),
   ("november".data, 11), ("december".data, 12)]

/-- Run one whole-format matcher: the match must consume the entire string
(`_strptime` raises unless `found.end()` equals the input length) and the
matched fields must form a valid `datetime.date`. -/
def runFmt (p : List Char → Option ((ℕ × ℕ × ℕ) × List Char)) (s : String) :
    Option PyDate :=
  match p s.data with
  | some (ymd, []) => mkDate ymd.1 ymd.2.1 ymd.2.2
  | _ => none

/-- Format `"%Y-%m-%d"`. -/
def parseISO (s : String) : Option PyDate :=
  runFmt (pbind pYear4 fun y => pbind (pLit '-') fun _ =>
    pbind pMonthNum fun m => pbind (pLit '-') fun _ =>
    pbind pDayNum fun d => ppure (y, m, d)) s

/-- Format `"%m/%d/%Y"`. -/
def parseUS (s : String) : Option PyDate :=
  runFmt (pbind pMonthNum fun m => pbind (pLit '/') fun _ =>
    pbind pDayNum fun d => pbind (pLit '/') fun _ =>
    pbind pYear4 fun y => ppure (y, m, d)) s

/-- Format `"%Y/%m/%d"`. -/
def parseISOSlash (s : String) : Option PyDate :=
  runFmt (pbind pYear4 fun y => pbind (pLit '/') fun _ =>
    pbind pMonthNum fun m => pbind (pLit '/') fun _ =>
    pbind pDayNum fun d => ppure (y, m, d)) s

/-- Format `"%d/%m/%Y"`. -/
def parseEU (s : String) : Option PyDate :=
  runFmt (pbind pDayNum fun d => pbind (pLit '/') fun _ =>
    pbind pMonthNum fun m => pbind (pLit '/') fun _ =>
    pbind pYear4 fun y => ppure (y, m, d)) s

/-- Format `"%b %d, %Y"`. -/
def parseAbbrMon (s : String) : Option PyDate :=
  runFmt (pbind (pMonthName monthAbbrevs) fun m => pbind pWS1 fun _ =>
    pbind pDayNum fun d => pbind (pLit ',') fun _ =>
    pbind pWS1 fun _ => pbind pYear4 fun y => ppure (y, m, d)) s

/-- Format `"%B %d, %Y"`. -/
def parseFullMon (s : String) : Option PyDate :=
  runFmt (pbind (pMonthName monthFulls) fun m => pbind pWS1 fun _ =>
    pbind pDayNum fun d => pbind (pLit ',') fun _ =>
    pbind pWS1 fun _ => pbind pYear4 fun y => ppure (y, m, d)) s

/-- The fixed format order tried by `parse_date_str`. -/
def strptimeFormats : List (String → Option PyDate) :=
  [parseISO, parseUS, parseISOSlash, parseEU, parseAbbrMon, parseFullMon]

/-- The `for fmt in (...)` loop: first successful format wins. -/
def tryFormats : List (String → Option PyDate) → String → Option PyDate
  | [], _ => none
  | f :: fs, s =>
    match f s with
    | some d => some d
    | none => tryFormats fs s

/-- `parse_date_str` from the source: empty-string guard, strip, then try the
six formats in order. -/
def parse_date_str (s : String) : Option PyDate :=
  if s = "" then none else tryFormats strptimeFormats (pyStrip s)

/-! ### Amount cleaning (`clean_amount`) -/

/-- `abs(x)` on a modelled float value. -/
def pyAbs (q : ℚ) : ℚ := if q < 0 then -q else q

/-- A regex word character (`\w`, ASCII part), for the `\b` boundaries. -/
def isWordChar (c : Char) : Bool := c.isAlphanum || c = '_'

/-- `re.search(r"\bCR\b", s, re.IGNORECASE)`: some position holds `c`/`C`
followed by `r`/`R` with non-word characters (or the string ends) on both
sides. -/
def hasCRMarker (s : String) : Bool :=
  let l := s.data
  (List.range l.length).any fun i =>
    (l[i]? == some 'C' || l[i]? == some 'c') &&
    (l[i+1]? == some 'R' || l[i+1]? == some 'r') &&
    (decide (i = 0) ||
      (match l[i-1]? with
       | some c => !isWordChar c
       | none => true)) &&
    (match l[i+2]? with
     | some c => !isWordChar c
     | none => true)

/-- Value of a digit run read as a natural number. -/
def natOfDigits (l : List Char) : ℕ :=
  l.foldl (fun acc c => 10 * acc + digitVal c) 0

/-- Value of a digit run read as a fractional part (digits after the dot). -/
def fracOfDigits (l : List Char) : ℚ :=
  l.foldr (fun c acc => ((digitVal c : ℚ) + acc) / 10) 0

/-- Python `float(s)` restricted to its only call site in the script: the
argument contains only digits, `.` and `-` (everything else was removed by
`re.sub(r"[^\d\.\-]", "", ...)`).  On such strings `float` succeeds exactly
when an optional leading minus is followed by digits with at most one dot and
at least one digit.  `none` models the raised `ValueError`. -/
def pyFloatOfCleaned (l : List Char) : Option ℚ :=
  let neg : Bool := l.head? == some '-'
  let rest := if neg then l.tail else l
  if rest.contains '-' then none
  else if 2 ≤ rest.count '.' then none
  else
    let ip := rest.takeWhile (fun c => c ≠ '.')
    let fp := (rest.dropWhile (fun c => c ≠ '.')).drop 1
    if ip = [] ∧ fp = [] then none
    else some ((if neg then -1 else 1) * ((natOfDigits ip : ℚ) + fracOfDigits fp))

/-- `clean_amount` from the source.  Its argument is the result of `get_ci`,
which is a (possibly empty) string, so the `raw is None` branch of the source
is vacuous at every call site.  `Except.error ()` is the uncaught
`ValueError` of `float(s_num)`. -/
def clean_amount (raw : String) : Except Unit ℚ :=
  let s := pyStrip raw
  let creditMarker := hasCRMarker s
  let negParen := s.data.head? == some '(' && s.data.getLast? == some ')'
  let sNoParen := s.data.filter fun c => !(c = '(' || c = ')')
  let explicitNeg := sNoParen.head? == some '-'
  let sNum := sNoParen.filter fun c => c.isDigit || c = '.' || c = '-'
  if sNum = [] ∨ sNum = ['-'] ∨ sNum = ['.'] then .ok 0
  else
    match pyFloatOfCleaned sNum with
    | none => .error ()
    | some v =>
      let isNeg := negParen || explicitNeg || creditMarker
      .ok (if isNeg then -(pyAbs v) else pyAbs v)

/-! ### Card-number suffix (`last4`) -/

/-- `re.search(r"(\d{4})\s*$", l)`: scan start positions left to right; at a
position the pattern matches when four digits are followed by whitespace up
to the end of the string (`$` with no trailing newline present, the input
having been stripped). -/
def searchTail4 : List Char → Option (List Char)
  | [] => none
  | c :: rest =>
    if ((c :: rest).take 4).length = 4 && ((c :: rest).take 4).all Char.isDigit
        && ((c :: rest).drop 4).all pyIsSpace then
      some ((c :: rest).take 4)
    else searchTail4 rest

/-- `last4` from the source: the captured four digits, or `"XXXX"`. -/
def last4 (masked : String) : String :=
  match searchTail4 (stripChars masked.data) with
  | some g => ⟨g⟩
  | none => "XXXX"

/-! ### Format detection -/

/-- Required Statement-schema columns (`STMT_REQUIRED`). -/
def STMT_REQUIRED : List String :=
  ["Date", "Amount", "Merchant Name", "Card Number",
   "Merchant Category Description", "Merchant City",
   "Merchant State or Province", "Merchant Country Code"]

/-- Minimal Portal-schema columns (`PORTAL_REQUIRED_MIN`). -/
def PORTAL_REQUIRED_MIN : List String := ["Date", "Amount"]

/-- Portal description-column aliases (`PORTAL_DESC_KEYS`). -/
def PORTAL_DESC_KEYS : List String :=
  ["Transaction description", "Description", "Merchant", "Merchant Name"]

/-- Portal category-column aliases (`PORTAL_CAT_KEYS`). -/
def PORTAL_CAT_KEYS : List String := ["Transaction category", "Category"]

/-- The configured Portal account label (`PORTAL_ACCOUNT_LABEL`). -/
def PORTAL_ACCOUNT_LABEL : String := "Rogers Mastercard"

/-- A recognized schema tag (`detect_format` returns a string or `None`). -/
inductive Fmt
  | statement
  | portal
deriving DecidableEq

/-- `headers_lower_set`: the set of trimmed, lowered headers (membership in
this list is the set membership the source tests). -/
def headersLowerSet (headers : List String) : List String :=
  headers.map fun h => pyLower (pyStrip h)

/-- The Statement signature of `detect_format`: every required column,
lowered, is in the lowered header set. -/
def stmtSigB (headers : List String) : Bool :=
  STMT_REQUIRED.all fun s => (headersLowerSet headers).contains (pyLower s)

/-- The Portal signature of `detect_format`: both minimal columns and at
least one description alias are in the lowered header set. -/
def portalSigB (headers : List String) : Bool :=
  (PORTAL_REQUIRED_MIN.all fun h => (headersLowerSet headers).contains (pyLower h))
    && (PORTAL_DESC_KEYS.any fun k => (headersLowerSet headers).contains (pyLower k))

/-- `detect_format` from the source: Statement first, then Portal, else
`None`. -/
def detect_format (headers : List String) : Option Fmt :=
  if stmtSigB headers then some .statement
  else if portalSigB headers then some .portal
  else none

/-- The per-column recheck of `read_csv_detect`: required Statement columns
whose lowered form is missing from the lowered header set. -/
def stmtMissing (headers : List String) : List String :=
  STMT_REQUIRED.filter fun c => !((headersLowerSet headers).contains (pyLower c))

/-! ### Case-insensitive row lookup (`get_ci`) -/

/-- A raw CSV row: ordered header-to-value pairs; a value is `none` when
`csv.DictReader` filled a short row with `None`. -/
def RawRow : Type := List (String × Option String)

/-- `k in row` / `row[k]`: association-list lookup on the exact key. -/
def rowGet (row : RawRow) (k : String) : Option (Option String) :=
  (List.find? (fun p => p.1 = k) row).map Prod.snd

/-- `headers_lower_map(keys).get(lk)`: the original header whose trimmed,
lowered form is `lk`; with duplicates the later key wins, as in the dict
comprehension of the source. -/
def lmapGet (keys : List String) (lk : String) : Option String :=
  (keys.filter fun h => pyLower (pyStrip h) = lk).getLast?

/-- `get_ci` from the source: one pass over the candidates on exact keys,
then one pass on case-insensitively matched keys, skipping `None` values;
otherwise the empty string. -/
def get_ci (row : RawRow) (candidates : List String) : String :=
  match candidates.findSome? (fun k =>
      match rowGet row k with
      | some (some v) => some v
      | _ => none) with
  | some v => v
  | none =>
    match candidates.findSome? (fun k =>
        match lmapGet (row.map Prod.fst) (pyLower k) with
        | some key =>
          match rowGet row key with
          | some (some v) => some v
          | _ => none
        | none => none) with
    | some v => v
    | none => ""

/-! ### Output-amount formatting (`f"{out_amount:.2f}"`) -/

/-- A decimal digit character by value (values above nine clamp to `'9'`;
every call site passes a value below ten). -/
def digitChar (n : ℕ) : Char :=
  if n = 0 then '0' else if n = 1 then '1' else if n = 2 then '2'
  else if n = 3 then '3' else if n = 4 then '4' else if n = 5 then '5'
  else if n = 6 then '6' else if n = 7 then '7' else if n = 8 then '8'
  else '9'

/-- Decimal digit list of a natural number, fuelled so that the recursion is
structural (`n + 1` units of fuel always suffice). -/
def natDigitListAux (fuel : ℕ) (n : ℕ) : List Char :=
  match fuel with
  | 0 => []
  | fuel' + 1 =>
    if n < 10 then [digitChar n]
    else natDigitListAux fuel' (n / 10) ++ [digitChar (n % 10)]

/-- Decimal digit list of a natural number. -/
def natDigitList (n : ℕ) : List Char := natDigitListAux (n + 1) n

/-- Decimal string of a natural number. -/
def natToStr (n : ℕ) : String := ⟨natDigitList n⟩

/-- Two-digit zero-padded rendering of a value below one hundred. -/
def pad2 (n : ℕ) : String := ⟨[digitChar (n / 10), digitChar (n % 10)]⟩

/-- Round to the nearest integer, ties to even - the rounding of `"%.2f"`
float formatting, applied here to the exact rational value. -/
def roundHalfEven (q : ℚ) : ℤ :=
  let f := q.floor
  let r := q - (f : ℚ)
  if r < 1 / 2 then f
  else if 1 / 2 < r then f + 1
  else if f % 2 = 0 then f else f + 1

/-- `"%.2f"` of a nonnegative magnitude: two fractional digits. -/
def fmt2 (q : ℚ) : String :=
  let n := (roundHalfEven (100 * q)).toNat
  natToStr (n / 100) ++ "." ++ pad2 (n % 100)

/-- `f"{out_amount:.2f}"` where `out_amount` is `abs(amt_raw)` when
`amt_raw < 0` and `-abs(amt_raw)` otherwise.  The negated branch always
carries the float sign bit, so it formats with a leading minus even when the
magnitude is zero (`-abs(0.0)` is `-0.0`, printed `"-0.00"`). -/
def pyFormat2 (amtRaw : ℚ) : String :=
  if amtRaw < 0 then fmt2 (pyAbs amtRaw) else "-" ++ fmt2 (pyAbs amtRaw)

/-! ### The row normalizer (loop body of `main`) -/

/-- The canonical output row written by `main`. -/
structure Rec where
  date : String
  merchant : String
  category : String
  account : String
  origStatement : String
  notes : String
  amount : String
  tags : String
deriving DecidableEq

/-- Field extraction and record construction for one accepted row (the
schema branches of the loop body).  `Except.error ()` propagates the
`ValueError` that `clean_amount` can raise. -/
def buildRecord (fmt : Fmt) (row : RawRow) (dateStr : String) : Except Unit Rec :=
  match fmt with
  | .statement =>
    let merchant := pyStrip (get_ci row ["Merchant Name"])
    let origStmt := pyStrip (get_ci row ["Merchant Category Description"])
    let city := pyStrip (get_ci row ["Merchant City"])
    let prov := pyStrip (get_ci row ["Merchant State or Province"])
    let country := pyStrip (get_ci row ["Merchant Country Code"])
    let notes := String.intercalate ", " (([city, prov, country]).filter fun p => !(p == ""))
    let acct := "Card ****" ++ last4 (get_ci row ["Card Number"])
    match clean_amount (get_ci row ["Amount"]) with
    | .error e => .error e
    | .ok amtRaw =>
      .ok { date := dateStr, merchant := merchant,
            category := if amtRaw < 0 then "Credit Card Payment" else "Uncategorized",
            account := acct,
            origStatement := if origStmt = "" then merchant else origStmt,
            notes := notes, amount := pyFormat2 amtRaw, tags := "" }
  | .portal =>
    let merchant := pyStrip (get_ci row PORTAL_DESC_KEYS)
    let portalCatRaw := pyStrip (get_ci row PORTAL_CAT_KEYS)
    let origStmt := merchant
    let notes := ""
    let acct := if PORTAL_ACCOUNT_LABEL = "" then "Rogers Mastercard" else PORTAL_ACCOUNT_LABEL
    match clean_amount (get_ci row ["Amount"]) with
    | .error e => .error e
    | .ok amtRaw =>
      .ok { date := dateStr, merchant := merchant,
            category :=
              if amtRaw < 0 then "Credit Card Payment"
              else if portalCatRaw = "" then "Uncategorized" else portalCatRaw,
            account := acct,
            origStatement := if origStmt = "" then merchant else origStmt,
            notes := notes, amount := pyFormat2 amtRaw, tags := "" }

/-- The fate of one row: dropped by the date filter (`unparsedDate` tells
whether the drop also counts as a parse failure), or emitted. -/
inductive RowOutcome
  | filtered (unparsedDate : Bool)
  | emitted (rec : Rec)
deriving DecidableEq

/-- The date-filter head of the loop body: `some b` means the row is dropped
(`continue`), with `b` true exactly when both `file_parse_fail` and
`file_filtered` are incremented; `none` means the row passes on. -/
def dateFilter (fromD toD : Option PyDate) (rowD : Option PyDate) : Option Bool :=
  if fromD.isSome || toD.isSome then
    match rowD with
    | none => some true
    | some d =>
      if Option.elim fromD false (fun f => d.ltB f) then some false
      else if Option.elim toD false (fun t => t.ltB d) then some false
      else none
  else none

/-- One iteration of the row loop of `main`: extract and strip the date
column, parse it, apply the date filter, then build the output record. -/
def processRow (fmt : Fmt) (fromD toD : Option PyDate) (row : RawRow) :
    Except Unit RowOutcome :=
  let dateStr := pyStrip (get_ci row ["Date"])
  let rowD := parse_date_str dateStr
  match dateFilter fromD toD rowD with
  | some unparsed => .ok (.filtered unparsed)
  | none =>
    match buildRecord fmt row dateStr with
    | .error e => .error e
    | .ok r => .ok (.emitted r)

/-- The whole row loop over one file: emitted records in order plus the
counters `file_written`, `file_filtered`, `file_parse_fail`.  An uncaught
exception aborts the run. -/
def processRows (fmt : Fmt) (fromD toD : Option PyDate) :
    List RawRow → Except Unit (List Rec × ℕ × ℕ × ℕ)
  | [] => .ok ([], 0, 0, 0)
  | row :: rest =>
    match processRow fmt fromD toD row with
    | .error e => .error e
    | .ok outcome =>
      match processRows fmt fromD toD rest with
      | .error e => .error e
      | .ok (recs, w, fl, pf) =>
        match outcome with
        | .filtered b => .ok (recs, w, fl + 1, if b then pf + 1 else pf)
        | .emitted r => .ok (r :: recs, w + 1, fl, pf)

/-! ### Computability plumbing

The kernel reduces the core rational operations fine, but their
`irreducible` marking stops the elaborator-side evaluation `decide` performs,
so they are unsealed here; and results of fallible steps need decidable
equality to be evaluated on concrete inputs. -/

attribute [local semireducible] Rat.mul Rat.add Rat.sub Rat.inv

instance {α : Type} [DecidableEq α] : DecidableEq (Except Unit α) := fun a b =>
  match a, b with
  | .error (), .error () => isTrue rfl
  | .ok x, .ok y =>
    if h : x = y then isTrue (by rw [h]) else isFalse (fun he => h (Except.ok.inj he))
  | .error _, .ok _ => isFalse (fun he => Except.noConfusion he)
  | .ok _, .error _ => isFalse (fun he => Except.noConfusion he)

/-! ### Concrete inputs used to instantiate the verified statements -/

/-- Statement-schema row with amount `45.00` and no other fields. -/
def rowAmt45 : RawRow := [("Amount", some "45.00")]

/-- Record emitted for `rowAmt45` under the Statement schema. -/
def recAmt45 : Rec :=
  { date := "2025-05-03", merchant := "", category := "Uncategorized",
    account := "Card ****XXXX", origStatement := "", notes := "",
    amount := "-45.00", tags := "" }

/-- Statement-schema row with parenthesized (negative) amount. -/
def rowParen5 : RawRow := [("Amount", some "(5.00)")]

/-- Record emitted for `rowParen5` under the Statement schema. -/
def recParen5 : Rec :=
  { date := "2025-05-03", merchant := "", category := "Credit Card Payment",
    account := "Card ****XXXX", origStatement := "", notes := "",
    amount := "5.00", tags := "" }

/-- Portal-schema row with a positive amount and a source category. -/
def rowPortal30 : RawRow :=
  [("Amount", some "30"), ("Transaction category", some "Groceries")]

/-- Record emitted for `rowPortal30` under the Portal schema. -/
def recPortal30 : Rec :=
  { date := "2025-05-03", merchant := "", category := "Groceries",
    account := "Rogers Mastercard", origStatement := "", notes := "",
    amount := "-30.00", tags := "" }

/-- Statement-schema row with a masked card number. -/
def rowCard1234 : RawRow :=
  [("Card Number", some "****1234"), ("Amount", some "45.00")]

/-- Record emitted for `rowCard1234` under the Statement schema. -/
def recCard1234 : Rec :=
  { date := "2025-05-03", merchant := "", category := "Uncategorized",
    account := "Card ****1234", origStatement := "", notes := "",
    amount := "-45.00", tags := "" }

/-- Row whose date cell parses under none of the six formats. -/
def rowBadDate : RawRow := [("Date", some "banana")]

/-- Row with an unparseable date cell carrying surrounding whitespace. -/
def rowSpacedDate : RawRow :=
  [("Date", some " X1 "), ("Transaction description", some "S")]

/-- Record emitted for `rowSpacedDate` under the Portal schema with no
filter: the date cell was stripped on output. -/
def recSpacedDate : Rec :=
  { date := "X1", merchant := "S", category := "Uncategorized",
    account := "Rogers Mastercard", origStatement := "S", notes := "",
    amount := "-0.00", tags := "" }

/-- Statement-schema row whose amount cell is `0`. -/
def rowZero : RawRow := [("Date", some "2025-05-03"), ("Amount", some "0")]

/-- Record emitted for `rowZero`: the zero amount formats as `"-0.00"`. -/
def recZero : Rec :=
  { date := "2025-05-03", merchant := "", category := "Uncategorized",
    account := "Card ****XXXX", origStatement := "", notes := "",
    amount := "-0.00", tags := "" }

/-- Portal-schema row with positive amount whose source category cell is the
literal string `Credit Card Payment`. -/
def rowPortalCCP : RawRow :=
  [("Amount", some "5"), ("Transaction category", some "Credit Card Payment")]

/-- Record emitted for `rowPortalCCP` under the Portal schema. -/
def recPortalCCP : Rec :=
  { date := "2025-05-03", merchant := "", category := "Credit Card Payment",
    account := "Rogers Mastercard", origStatement := "", notes := "",
    amount := "-5.00", tags := "" }

/-- Row whose amount cell `1.2.3` survives the cleaning guard but is not a
valid float literal. -/
def rowBadAmount : RawRow :=
  [("Date", some "2025-05-03"), ("Amount", some "1.2.3")]

/-! ### Helper lemmas -/

theorem digitChar_isDigit (n : ℕ) : (digitChar n).isDigit = true := by
  unfold digitChar
  split_ifs <;> decide

theorem natDigitListAux_digits (fuel : ℕ) :
    ∀ n c, c ∈ natDigitListAux fuel n → c.isDigit = true := by
  induction fuel with
  | zero => intro n c hc; simp [natDigitListAux] at hc
  | succ fuel ih =>
    intro n c hc
    rw [natDigitListAux] at hc
    split at hc
    · simp at hc; subst hc; exact digitChar_isDigit n
    · rcases List.mem_append.1 hc with h1 | h2
      · exact ih _ c h1
      · simp at h2; subst h2; exact digitChar_isDigit _

theorem natDigitList_digits (n : ℕ) : ∀ c ∈ natDigitList n, c.isDigit = true :=
  fun c hc => natDigitListAux_digits (n + 1) n c hc

theorem natDigitList_ne_nil (n : ℕ) : natDigitList n ≠ [] := by
  rw [natDigitList, natDigitListAux]
  split <;> simp

theorem fmt2_form (q : ℚ) :
    ∃ pre d1 d2, fmt2 q = (⟨pre⟩ : String) ++ "." ++ (⟨[d1, d2]⟩ : String) ∧
      pre ≠ [] ∧ (∀ c ∈ pre, c.isDigit = true) ∧ d1.isDigit = true ∧
      d2.isDigit = true :=
  ⟨natDigitList ((roundHalfEven (100 * q)).toNat / 100),
    digitChar ((roundHalfEven (100 * q)).toNat % 100 / 10),
    digitChar ((roundHalfEven (100 * q)).toNat % 100 % 10),
    rfl, natDigitList_ne_nil _, natDigitList_digits _,
    digitChar_isDigit _, digitChar_isDigit _⟩

theorem pyFormat2_neg (v : ℚ) (h : v < 0) : pyFormat2 v = fmt2 (-v) := by
  rw [pyFormat2, if_pos h, pyAbs, if_pos h]

theorem pyFormat2_nonneg (v : ℚ) (h : 0 ≤ v) : pyFormat2 v = "-" ++ fmt2 v := by
  rw [pyFormat2, if_neg (not_lt.2 h), pyAbs, if_neg (not_lt.2 h)]

theorem buildRecord_inv (fmt : Fmt) (row : RawRow) (ds : String) (v : ℚ)
    (rec : Rec) (h1 : clean_amount (get_ci row ["Amount"]) = .ok v)
    (h2 : buildRecord fmt row ds = .ok rec) :
    rec.date = ds ∧ rec.amount = pyFormat2 v ∧
    rec.account = (match fmt with
      | .statement => "Card ****" ++ last4 (get_ci row ["Card Number"])
      | .portal =>
        if PORTAL_ACCOUNT_LABEL = "" then "Rogers Mastercard"
        else PORTAL_ACCOUNT_LABEL) ∧
    rec.category = (match fmt with
      | .statement => if v < 0 then "Credit Card Payment" else "Uncategorized"
      | .portal =>
        if v < 0 then "Credit Card Payment"
        else if pyStrip (get_ci row PORTAL_CAT_KEYS) = "" then "Uncategorized"
        else pyStrip (get_ci row PORTAL_CAT_KEYS)) := by
  cases fmt <;>
    (simp only [buildRecord, h1] at h2
     injection h2 with h2
     subst h2
     exact ⟨rfl, rfl, rfl, rfl⟩)

theorem buildRecord_date (fmt : Fmt) (row : RawRow) (ds : String) (rec : Rec)
    (h2 : buildRecord fmt row ds = .ok rec) : rec.date = ds := by
  revert h2
  cases fmt <;> cases hca : clean_amount (get_ci row ["Amount"]) <;>
    simp only [buildRecord, hca] <;> intro h2
  · exact Except.noConfusion h2
  · injection h2 with h2; subst h2; rfl
  · exact Except.noConfusion h2
  · injection h2 with h2; subst h2; rfl

theorem ltP_irrefl (a : PyDate) : ¬ a.ltP a := by
  unfold PyDate.ltP; omega

theorem leP_not_lt {f t : PyDate} (h : f.leP t) : ¬ t.ltP f := by
  rcases h with hlt | rfl
  · revert hlt; unfold PyDate.ltP; omega
  · exact ltP_irrefl f

theorem leP_lt_not_lt {f t d : PyDate} (hft : f.leP t) (htd : t.ltP d) :
    ¬ d.ltP f := by
  rcases hft with hlt | rfl
  · revert hlt htd; unfold PyDate.ltP; omega
  · revert htd; unfold PyDate.ltP; omega

theorem dateFilter_both (f t d : PyDate) :
    dateFilter (some f) (some t) (some d) =
      if d.ltP f then some false else if t.ltP d then some false else none := by
  simp [dateFilter, PyDate.ltB, Option.elim]

theorem dropWhile_head_no (p : Char → Bool) (l : List Char) (c : Char)
    (h : (l.dropWhile p).head? = some c) : p c = false := by
  induction l with
  | nil => simp [List.dropWhile] at h
  | cons a as ih =>
    rw [List.dropWhile_cons] at h
    by_cases hp : p a = true
    · exact ih (by rwa [if_pos hp] at h)
    · rw [if_neg hp] at h
      simp at h
      subst h
      exact Bool.not_eq_true _ ▸ hp

theorem stripChars_no_trailing (l : List Char) (c : Char)
    (h : (stripChars l).getLast? = some c) : pyIsSpace c = false := by
  unfold stripChars at h
  rw [List.getLast?_reverse] at h
  exact dropWhile_head_no _ _ _ h

theorem searchTail4_eq_tail (t : List Char)
    (hnt : ∀ c, t.getLast? = some c → pyIsSpace c = false) :
    searchTail4 t =
      if 4 ≤ t.length ∧ (t.drop (t.length - 4)).all Char.isDigit = true
      then some (t.drop (t.length - 4)) else none := by
  induction t with
  | nil => simp [searchTail4]
  | cons a as ih =>
    have hnt' : ∀ c, as.getLast? = some c → pyIsSpace c = false := by
      intro c hc
      cases as with
      | nil => simp at hc
      | cons b bs => exact hnt c (by rw [List.getLast?_cons_cons]; exact hc)
    simp only [searchTail4]
    split
    · -- head position matches: four digits then whitespace to the end
      rename_i hcond
      simp only [Bool.and_eq_true, decide_eq_true_eq] at hcond
      obtain ⟨⟨hlen4, hdig⟩, hws⟩ := hcond
      have hlen : 4 ≤ (a :: as).length := by
        rw [List.length_take] at hlen4; omega
      rcases Nat.lt_or_ge ((a :: as).length) 5 with h5 | h5
      · -- length exactly four: the match is the whole list
        have hzero : (a :: as).length - 4 = 0 := by omega
        have htake : (a :: as).take 4 = a :: as :=
          List.take_of_length_le (by omega)
        rw [htake] at hdig
        rw [hzero, List.drop_zero, htake, if_pos ⟨hlen, hdig⟩]
      · -- longer: the tail after position four is nonempty and all-space,
        -- contradicting that the stripped input has no trailing whitespace
        exfalso
        have hdne : (a :: as).drop 4 ≠ [] := by
          intro hcon
          have hld := congrArg List.length hcon
          rw [List.length_drop] at hld
          simp only [List.length_cons, List.length_nil] at hld
          simp only [List.length_cons] at h5
          omega
        obtain ⟨c, hc⟩ :=
          Option.isSome_iff_exists.1 (List.getLast?_isSome.2 hdne)
        have hcfull : (a :: as).getLast? = some c := by
          conv_lhs => rw [← List.take_append_drop 4 (a :: as)]
          rw [List.getLast?_append_of_ne_nil _ hdne]
          exact hc
        have hnotspace := hnt c hcfull
        have hspace : pyIsSpace c = true :=
          List.all_eq_true.1 hws c
            (List.mem_of_mem_getLast? (Option.mem_def.2 hc))
        rw [hnotspace] at hspace
        exact Bool.false_ne_true hspace
    · -- head position fails: recurse, and reconcile the two if-forms
      rename_i hcond
      rw [ih hnt']
      rcases Nat.lt_or_ge as.length 3 with h3 | h3
      · -- too short on both sides
        rw [if_neg (fun hh => absurd hh.1 (by omega)),
          if_neg (fun hh => absurd hh.1 (by simp only [List.length_cons]; omega))]
      · rcases Nat.eq_or_lt_of_le h3 with h3e | h3l
        · -- list has length exactly four but is not all digits
          have htake : (a :: as).take 4 = a :: as :=
            List.take_of_length_le (by simp only [List.length_cons]; omega)
          have hdropnil : (a :: as).drop 4 = [] := by
            apply List.eq_nil_of_length_eq_zero
            rw [List.length_drop]
            simp only [List.length_cons]
            omega
          have hdig : ¬ ((a :: as).all Char.isDigit = true) := by
            intro hcon
            apply hcond
            rw [htake, hdropnil]
            simp only [hcon, List.all_nil, Bool.and_true, Bool.true_and,
              List.length_cons, decide_eq_true_eq]
            omega
          rw [if_neg (fun hh => absurd hh.1 (by omega)),
            if_neg (fun hh => hdig (by
              rw [show (a :: as).length - 4 = 0 by
                  simp only [List.length_cons]; omega,
                List.drop_zero] at hh
              exact hh.2))]
        · -- both sides keep looking at the last four characters
          have hdrop : (a :: as).drop ((a :: as).length - 4) =
              as.drop (as.length - 4) := by
            rw [show (a :: as).length - 4 = (as.length - 4) + 1 by
              simp only [List.length_cons]; omega]
            rfl
          rw [hdrop]
          refine if_congr ⟨fun hh => ⟨by simp only [List.length_cons]; omega, hh.2⟩,
            fun hh => ⟨by omega, hh.2⟩⟩ rfl rfl

/-! ### C1 -/

/-- C1: the claim says the row normalizer never raises for malformed input
and that malformed amounts degrade to zero.  The code contradicts it: the
guard of `clean_amount` only catches the cleaned strings `""`, `"-"` and
`"."`, so a cell such as `"1.2.3"` reaches `float("1.2.3")`, which raises an
uncaught `ValueError` that aborts the whole run instead of defaulting the
amount to zero.  This theorem evaluates the embedded code at the failing
input. -/
theorem c1_clean_amount_raises :
    clean_amount "1.2.3" = .error () ∧
    processRow .statement none none rowBadAmount = .error () := by decide

/-! ### C2 -/

/-- C2 counterexample: a statement row whose amount cell is `0` cleans to the
zero amount, yet the emitted `Amount` is `"-0.00"`, which does carry a `-`
prefix (the non-negative branch formats `-abs(0.0)`, a float negative zero).
So a zero amount is not emitted without a `-` prefix, contrary to the
claim. -/
theorem c2_counterexample :
    clean_amount "0" = .ok 0 ∧
    processRow .statement none none rowZero = .ok (.emitted recZero) ∧
    recZero.amount = "-0.00" ∧ recZero.amount.data.head? = some '-' := by decide

/-- C2 (amended): for every emitted record, `Amount` is a non-empty decimal
string with exactly two fractional digits; a record from a negative cleaned
source amount carries no sign prefix, while a record from a non-negative
cleaned source amount - including zero, emitted as `"-0.00"` - carries a
leading `-`. -/
theorem c2_amount_format (fmt : Fmt) (row : RawRow) (ds : String) (v : ℚ)
    (rec : Rec) (h1 : clean_amount (get_ci row ["Amount"]) = .ok v)
    (h2 : buildRecord fmt row ds = .ok rec) :
    (v < 0 → rec.amount = fmt2 (-v)) ∧
    (0 ≤ v → rec.amount = "-" ++ fmt2 v) ∧
    ∃ sign pre d1 d2,
      rec.amount = sign ++ (⟨pre⟩ : String) ++ "." ++ (⟨[d1, d2]⟩ : String) ∧
      (sign = "" ∨ sign = "-") ∧ pre ≠ [] ∧ (∀ c ∈ pre, c.isDigit = true) ∧
      d1.isDigit = true ∧ d2.isDigit = true := by
  obtain ⟨hd, ha, hacc, hcat⟩ := buildRecord_inv fmt row ds v rec h1 h2
  refine ⟨fun hv => by rw [ha, pyFormat2_neg v hv],
    fun hv => by rw [ha, pyFormat2_nonneg v hv], ?_⟩
  by_cases hv : v < 0
  · obtain ⟨pre, d1, d2, he, hne, hdg, hd1, hd2⟩ := fmt2_form (-v)
    refine ⟨"", pre, d1, d2, ?_, Or.inl rfl, hne, hdg, hd1, hd2⟩
    rw [ha, pyFormat2_neg v hv, he]
    rfl
  · push_neg at hv
    obtain ⟨pre, d1, d2, he, hne, hdg, hd1, hd2⟩ := fmt2_form v
    refine ⟨"-", pre, d1, d2, ?_, Or.inr rfl, hne, hdg, hd1, hd2⟩
    rw [ha, pyFormat2_nonneg v hv, he]
    simp [String.append_assoc]

/-- C2 witness: the amended statement evaluated on a concrete row with
amount `45.00`. -/
theorem c2_amount_format_witness : recAmt45.amount = "-" ++ fmt2 45 :=
  (c2_amount_format .statement rowAmt45 "2025-05-03" 45 recAmt45 (by decide)
    (by decide)).2.1 (by decide)

/-! ### C3 -/

/-- C3 counterexample: a Portal row with the non-negative amount `5` whose
source category cell is the literal string `Credit Card Payment` is emitted
with `Category = "Credit Card Payment"` through the category pass-through,
so `Category = "Credit Card Payment"` does not imply a negative cleaned
amount, refuting the only-if direction of the claim. -/
theorem c3_counterexample :
    clean_amount "5" = .ok 5 ∧ ¬ ((5 : ℚ) < 0) ∧
    buildRecord .portal rowPortalCCP "2025-05-03" = .ok recPortalCCP ∧
    recPortalCCP.category = "Credit Card Payment" := by decide

/-- C3 (amended): a negative cleaned source amount always yields
`Category = "Credit Card Payment"` with `Amount` the formatted absolute
value and any source category ignored; conversely a record with that
category comes from a negative amount except in one case - the Portal
schema with a non-negative amount whose source category string is itself
`"Credit Card Payment"`.  Under the Statement schema the biconditional of
the original claim does hold. -/
theorem c3_category (fmt : Fmt) (row : RawRow) (ds : String) (v : ℚ)
    (rec : Rec) (h1 : clean_amount (get_ci row ["Amount"]) = .ok v)
    (h2 : buildRecord fmt row ds = .ok rec) :
    (v < 0 → rec.category = "Credit Card Payment" ∧ rec.amount = fmt2 (-v)) ∧
    (rec.category = "Credit Card Payment" →
      v < 0 ∨ (fmt = .portal ∧ 0 ≤ v ∧
        pyStrip (get_ci row PORTAL_CAT_KEYS) = "Credit Card Payment")) ∧
    (fmt = .statement → (rec.category = "Credit Card Payment" ↔ v < 0)) := by
  cases fmt
  all_goals obtain ⟨hd, ha, hacc, hcat⟩ := buildRecord_inv _ row ds v rec h1 h2
  all_goals dsimp only at hcat
  · refine ⟨?_, ?_, ?_⟩
    · intro hv
      exact ⟨by rw [hcat, if_pos hv], by rw [ha, pyFormat2_neg v hv]⟩
    · intro hcp
      by_cases hv : v < 0
      · exact Or.inl hv
      · rw [hcat, if_neg hv] at hcp
        exact absurd hcp (by decide)
    · intro _
      constructor
      · intro hcp
        by_cases hv : v < 0
        · exact hv
        · rw [hcat, if_neg hv] at hcp
          exact absurd hcp (by decide)
      · intro hv
        rw [hcat, if_pos hv]
  · refine ⟨?_, ?_, ?_⟩
    · intro hv
      exact ⟨by rw [hcat, if_pos hv], by rw [ha, pyFormat2_neg v hv]⟩
    · intro hcp
      by_cases hv : v < 0
      · exact Or.inl hv
      · right
        refine ⟨rfl, not_lt.1 hv, ?_⟩
        rw [hcat, if_neg hv] at hcp
        by_cases hpc : pyStrip (get_ci row PORTAL_CAT_KEYS) = ""
        · rw [if_pos hpc] at hcp
          exact absurd hcp (by decide)
        · rw [if_neg hpc] at hcp
          exact hcp
    · intro hfe
      exact absurd hfe (by decide)

/-- C3 witness: the amended statement evaluated on a concrete statement row
with the parenthesized amount `(5.00)`, which cleans to the negative value
`-5`. -/
theorem c3_category_witness :
    recParen5.category = "Credit Card Payment" ∧
    recParen5.amount = fmt2 (-(-5)) :=
  (c3_category .statement rowParen5 "2025-05-03" (-5) recParen5 (by decide)
    (by decide)).1 (by decide)

/-! ### C4 -/

/-- C4: a non-negative cleaned source amount is emitted as its negation
(formatted with a leading `-`); the category is `"Uncategorized"` under the
Statement schema unconditionally, and under the Portal schema it is the
stripped source category string when that is non-empty, else
`"Uncategorized"`. -/
theorem c4_nonneg_transform (fmt : Fmt) (row : RawRow) (ds : String) (v : ℚ)
    (rec : Rec) (h1 : clean_amount (get_ci row ["Amount"]) = .ok v)
    (hv : 0 ≤ v) (h2 : buildRecord fmt row ds = .ok rec) :
    rec.amount = "-" ++ fmt2 v ∧
    (fmt = .statement → rec.category = "Uncategorized") ∧
    (fmt = .portal → rec.category =
      (if pyStrip (get_ci row PORTAL_CAT_KEYS) = "" then "Uncategorized"
       else pyStrip (get_ci row PORTAL_CAT_KEYS))) := by
  cases fmt
  all_goals obtain ⟨hd, ha, hacc, hcat⟩ := buildRecord_inv _ row ds v rec h1 h2
  all_goals dsimp only at hcat
  · exact ⟨by rw [ha, pyFormat2_nonneg v hv],
      fun _ => by rw [hcat, if_neg (not_lt.2 hv)],
      fun hfe => absurd hfe (by decide)⟩
  · exact ⟨by rw [ha, pyFormat2_nonneg v hv],
      fun hfe => absurd hfe (by decide),
      fun _ => by rw [hcat, if_neg (not_lt.2 hv)]⟩

/-- C4 witness: a Portal row with amount `30` and source category
`Groceries` keeps that category and negates the amount. -/
theorem c4_nonneg_transform_witness :
    recPortal30.amount = "-" ++ fmt2 30 ∧
    recPortal30.category =
      (if pyStrip (get_ci rowPortal30 PORTAL_CAT_KEYS) = "" then "Uncategorized"
       else pyStrip (get_ci rowPortal30 PORTAL_CAT_KEYS)) :=
  ⟨(c4_nonneg_transform .portal rowPortal30 "2025-05-03" 30 recPortal30
      (by decide) (by decide) (by decide)).1,
    (c4_nonneg_transform .portal rowPortal30 "2025-05-03" 30 recPortal30
      (by decide) (by decide) (by decide)).2.2 rfl⟩

/-! ### C5 -/

/-- C5: the classifier tests the Statement signature first, so a header set
satisfying both signatures classifies as Statement; one satisfying only the
Portal signature classifies as Portal; and one satisfying neither yields the
normal return `none`. -/
theorem c5_detect_priority (headers : List String) :
    (stmtSigB headers = true → detect_format headers = some .statement) ∧
    (stmtSigB headers = true → portalSigB headers = true →
      detect_format headers = some .statement) ∧
    (stmtSigB headers = false → portalSigB headers = true →
      detect_format headers = some .portal) ∧
    (stmtSigB headers = false → portalSigB headers = false →
      detect_format headers = none) := by
  refine ⟨fun hs => ?_, fun hs _ => ?_, fun hs hp => ?_, fun hs hp => ?_⟩
  · unfold detect_format
    rw [if_pos hs]
  · unfold detect_format
    rw [if_pos hs]
  · unfold detect_format
    rw [if_neg (by simp [hs]), if_pos hp]
  · unfold detect_format
    rw [if_neg (by simp [hs]), if_neg (by simp [hp])]

/-- C5 witness: the Statement required columns themselves satisfy both
signatures (they contain a date, an amount and the description alias
`Merchant Name`), and classify as Statement. -/
theorem c5_detect_priority_witness :
    detect_format STMT_REQUIRED = some Fmt.statement :=
  (c5_detect_priority STMT_REQUIRED).2.1 (by decide) (by decide)

/-! ### C6 -/

/-- C6: with both bounds of a well-formed window active and a parsed row
date, the filter keeps a row dated exactly at either bound and drops a row
strictly before the lower or strictly after the upper bound. -/
theorem c6_date_filter_inclusive (f t d : PyDate) (hft : f.leP t) :
    ((d = f ∨ d = t) → dateFilter (some f) (some t) (some d) = none) ∧
    (d.ltP f → dateFilter (some f) (some t) (some d) = some false) ∧
    (t.ltP d → dateFilter (some f) (some t) (some d) = some false) := by
  refine ⟨?_, ?_, ?_⟩
  · rintro (rfl | rfl)
    · rw [dateFilter_both, if_neg (ltP_irrefl d), if_neg (leP_not_lt hft)]
    · rw [dateFilter_both, if_neg (leP_not_lt hft), if_neg (ltP_irrefl d)]
  · intro h
    rw [dateFilter_both, if_pos h]
  · intro h
    rw [dateFilter_both, if_neg (leP_lt_not_lt hft h), if_pos h]

/-- C6 witness: a row dated exactly at the lower bound of the window from
May 1 to May 31, 2025 passes the filter. -/
theorem c6_date_filter_inclusive_witness :
    dateFilter (some ⟨2025, 5, 1⟩) (some ⟨2025, 5, 31⟩)
      (some ⟨2025, 5, 1⟩) = none :=
  (c6_date_filter_inclusive ⟨2025, 5, 1⟩ ⟨2025, 5, 31⟩ ⟨2025, 5, 1⟩
    (by decide)).1 (Or.inl rfl)

/-! ### C7 -/

/-- C7: every record emitted for a Statement row has
`Account = "Card ****" ++ last4(card number)`, and `last4` extracts exactly
the last four characters of the stripped card value when those four are all
digits (four digits at the end of the string, trailing whitespace ignored
by the stripping), and `"XXXX"` otherwise. -/
theorem c7_statement_account (row : RawRow) (ds : String) (v : ℚ) (rec : Rec)
    (h1 : clean_amount (get_ci row ["Amount"]) = .ok v)
    (h2 : buildRecord .statement row ds = .ok rec) :
    rec.account = "Card ****" ++ last4 (get_ci row ["Card Number"]) ∧
    ∀ s : String, last4 s =
      (if 4 ≤ (stripChars s.data).length ∧
          ((stripChars s.data).drop ((stripChars s.data).length - 4)).all
            Char.isDigit = true
       then (⟨(stripChars s.data).drop ((stripChars s.data).length - 4)⟩ : String)
       else "XXXX") := by
  obtain ⟨hd, ha, hacc, hcat⟩ := buildRecord_inv .statement row ds v rec h1 h2
  refine ⟨hacc, ?_⟩
  intro s
  unfold last4
  rw [searchTail4_eq_tail _ (fun c hc => stripChars_no_trailing s.data c hc)]
  by_cases hc : 4 ≤ (stripChars s.data).length ∧
      ((stripChars s.data).drop ((stripChars s.data).length - 4)).all
        Char.isDigit = true
  · rw [if_pos hc, if_pos hc]
  · rw [if_neg hc, if_neg hc]

/-- C7 witness: a statement row with card number `****1234` yields the
account label built from the extracted suffix `1234`. -/
theorem c7_statement_account_witness :
    recCard1234.account = "Card ****" ++ last4 (get_ci rowCard1234 ["Card Number"]) :=
  (c7_statement_account rowCard1234 "2025-05-03" 45 recCard1234 (by decide)
    (by decide)).1

/-! ### C8 -/

/-- C8 counterexample: with no filter active, a row whose unparseable date
cell is `" X1 "` is kept, but the emitted `Date` is the stripped string
`"X1"`, not the raw cell value, so the raw date string is not passed through
unchanged. -/
theorem c8_counterexample :
    get_ci rowSpacedDate ["Date"] = " X1 " ∧
    processRow .portal none none rowSpacedDate = .ok (.emitted recSpacedDate) ∧
    recSpacedDate.date ≠ get_ci rowSpacedDate ["Date"] := by decide

/-- C8 (amended): for a row with an unparseable date value, when no filter
is active the row is never dropped and the emitted `Date` is the stripped
raw date cell (surrounding whitespace removed, otherwise unchanged); when a
filter is active the row is dropped with the unparsed-date marker and
counted both as filtered and as an unparsed-date drop. -/
theorem c8_unparsed_date (fmt : Fmt) (fromD toD : Option PyDate)
    (row : RawRow)
    (h : parse_date_str (pyStrip (get_ci row ["Date"])) = none) :
    (fromD = none → toD = none →
      (∀ b, processRow fmt fromD toD row ≠ .ok (.filtered b)) ∧
      (∀ rec, processRow fmt fromD toD row = .ok (.emitted rec) →
        rec.date = pyStrip (get_ci row ["Date"]))) ∧
    ((fromD.isSome || toD.isSome) = true →
      processRow fmt fromD toD row = .ok (.filtered true) ∧
      processRows fmt fromD toD [row] = .ok ([], 0, 1, 1)) := by
  constructor
  · rintro rfl rfl
    have hpr : processRow fmt none none row =
        match buildRecord fmt row (pyStrip (get_ci row ["Date"])) with
        | .error e => .error e
        | .ok r => .ok (.emitted r) := rfl
    constructor
    · intro b hb
      rw [hpr] at hb
      cases hbr : buildRecord fmt row (pyStrip (get_ci row ["Date"])) <;>
        rw [hbr] at hb
      · exact Except.noConfusion hb
      · injection hb with hb
        exact RowOutcome.noConfusion hb
    · intro rec hrec
      rw [hpr] at hrec
      cases hbr : buildRecord fmt row (pyStrip (get_ci row ["Date"])) <;>
        rw [hbr] at hrec
      · exact Except.noConfusion hrec
      · injection hrec with hrec
        injection hrec with hrec
        subst hrec
        exact buildRecord_date fmt row _ _ hbr
  · intro hact
    have hdf : dateFilter fromD toD
        (parse_date_str (pyStrip (get_ci row ["Date"]))) = some true := by
      rw [h]
      unfold dateFilter
      rw [if_pos hact]
    have hpr : processRow fmt fromD toD row = .ok (.filtered true) := by
      simp only [processRow]
      rw [hdf]
    exact ⟨hpr, by simp [processRows, hpr]⟩

/-- C8 witness: the amended statement evaluated with an active lower bound
on a row whose date cell is `banana`: the row is dropped and counted both as
filtered and as an unparsed-date drop. -/
theorem c8_unparsed_date_witness :
    processRow .portal (some ⟨2025, 1, 1⟩) none rowBadDate =
      .ok (.filtered true) ∧
    processRows .portal (some ⟨2025, 1, 1⟩) none [rowBadDate] =
      .ok ([], 0, 1, 1) :=
  (c8_unparsed_date .portal (some ⟨2025, 1, 1⟩) none rowBadDate (by decide)).2
    rfl

/-! ### C9 -/

/-- C9: date parsing tries ISO, US slash, ISO slash, EU slash, abbreviated
month and full month formats in this fixed order; the first success
determines the result, and when every format fails the parse yields no
date. -/
theorem c9_parse_order (s : String) (d : PyDate) :
    (parseISO (pyStrip s) = some d → parse_date_str s = some d) ∧
    (parseISO (pyStrip s) = none → parseUS (pyStrip s) = some d →
      parse_date_str s = some d) ∧
    (parseISO (pyStrip s) = none → parseUS (pyStrip s) = none →
      parseISOSlash (pyStrip s) = some d → parse_date_str s = some d) ∧
    (parseISO (pyStrip s) = none → parseUS (pyStrip s) = none →
      parseISOSlash (pyStrip s) = none → parseEU (pyStrip s) = some d →
      parse_date_str s = some d) ∧
    (parseISO (pyStrip s) = none → parseUS (pyStrip s) = none →
      parseISOSlash (pyStrip s) = none → parseEU (pyStrip s) = none →
      parseAbbrMon (pyStrip s) = some d → parse_date_str s = some d) ∧
    (parseISO (pyStrip s) = none → parseUS (pyStrip s) = none →
      parseISOSlash (pyStrip s) = none → parseEU (pyStrip s) = none →
      parseAbbrMon (pyStrip s) = none → parseFullMon (pyStrip s) = some d →
      parse_date_str s = some d) ∧
    (parseISO (pyStrip s) = none → parseUS (pyStrip s) = none →
      parseISOSlash (pyStrip s) = none → parseEU (pyStrip s) = none →
      parseAbbrMon (pyStrip s) = none → parseFullMon (pyStrip s) = none →
      parse_date_str s = none) := by
  by_cases hs : s = ""
  · subst hs
    refine ⟨fun h1 => ?_, fun h1 h2 => ?_, fun h1 h2 h3 => ?_,
      fun h1 h2 h3 h4 => ?_, fun h1 h2 h3 h4 h5 => ?_,
      fun h1 h2 h3 h4 h5 h6 => ?_, fun h1 h2 h3 h4 h5 h6 => rfl⟩
    · rw [(by decide : parseISO (pyStrip "") = none)] at h1
      exact Option.noConfusion h1
    · rw [(by decide : parseUS (pyStrip "") = none)] at h2
      exact Option.noConfusion h2
    · rw [(by decide : parseISOSlash (pyStrip "") = none)] at h3
      exact Option.noConfusion h3
    · rw [(by decide : parseEU (pyStrip "") = none)] at h4
      exact Option.noConfusion h4
    · rw [(by decide : parseAbbrMon (pyStrip "") = none)] at h5
      exact Option.noConfusion h5
    · rw [(by decide : parseFullMon (pyStrip "") = none)] at h6
      exact Option.noConfusion h6
  · refine ⟨fun h1 => ?_, fun h1 h2 => ?_, fun h1 h2 h3 => ?_,
      fun h1 h2 h3 h4 => ?_, fun h1 h2 h3 h4 h5 => ?_,
      fun h1 h2 h3 h4 h5 h6 => ?_, fun h1 h2 h3 h4 h5 h6 => ?_⟩
    · rw [parse_date_str, if_neg hs]
      simp only [strptimeFormats, tryFormats, h1]
    · rw [parse_date_str, if_neg hs]
      simp only [strptimeFormats, tryFormats, h1, h2]
    · rw [parse_date_str, if_neg hs]
      simp only [strptimeFormats, tryFormats, h1, h2, h3]
    · rw [parse_date_str, if_neg hs]
      simp only [strptimeFormats, tryFormats, h1, h2, h3, h4]
    · rw [parse_date_str, if_neg hs]
      simp only [strptimeFormats, tryFormats, h1, h2, h3, h4, h5]
    · rw [parse_date_str, if_neg hs]
      simp only [strptimeFormats, tryFormats, h1, h2, h3, h4, h5, h6]
    · rw [parse_date_str, if_neg hs]
      simp only [strptimeFormats, tryFormats, h1, h2, h3, h4, h5, h6]

/-- C9 witness: `25/12/2021` fails the first three formats and is decided by
the EU slash format. -/
theorem c9_parse_order_witness :
    parse_date_str "25/12/2021" = some ⟨2021, 12, 25⟩ :=
  (c9_parse_order "25/12/2021" ⟨2021, 12, 25⟩).2.2.2.1 (by decide) (by decide)
    (by decide) (by decide)

/-! ### C10 -/

/-- C10: whenever `detect_format` answers Statement, the per-column recheck
of `read_csv_detect` finds no missing required column, so its skip branch is
unreachable. -/
theorem c10_recheck_vacuous (headers : List String)
    (h : detect_format headers = some .statement) : stmtMissing headers = [] := by
  have hs : stmtSigB headers = true := by
    by_cases hs : stmtSigB headers = true
    · exact hs
    · exfalso
      unfold detect_format at h
      rw [if_neg hs] at h
      by_cases hp : portalSigB headers = true
      · rw [if_pos hp] at h
        injection h with h
        exact Fmt.noConfusion h
      · rw [if_neg hp] at h
        exact Option.noConfusion h
  unfold stmtMissing
  rw [List.filter_eq_nil_iff]
  intro c hc
  have hcc := List.all_eq_true.1 hs c hc
  rw [hcc]
  decide

/-- C10 witness: the recheck on the Statement required columns themselves
finds nothing missing. -/
theorem c10_recheck_vacuous_witness : stmtMissing STMT_REQUIRED = [] :=
  c10_recheck_vacuous STMT_REQUIRED (by decide)

end RogersCC
